import Mathlib

/-!
# Verification of the pdfTools page-model and range/merge/split engine

Shallow embedding of the three scripts of the repository:

* `src/pdf_splitter/split_pdf.py`   — `parse_ranges`, `add_pages`, `write_pdf`, `split_pdf`
* `src/pdf_merger/merge_to_pdf.py`  — `add_file_to_merger`, `merge_directory`
* `src/pdf_compressor/compress_pdf2.py` — `compress_pdf`

Pages are opaque values of a type variable `α`; a PDF document is its list of
pages.  Python strings are embedded as `List Char` (`Str`) so that every
operation is structurally recursive and kernel-reducible.  Filesystem effects
are embedded as explicit state passing over a small filesystem model, and
Python exceptions as `Except` / `Option` error values.
-/

namespace PdfTools

/-- Computable equality test for `Except`, so that concrete runs of the
embedded fallible operations can be settled by `decide`. -/
instance instDecEqExcept {ε α : Type} [DecidableEq ε] [DecidableEq α] :
    DecidableEq (Except ε α)
  | .error e, .error f =>
    match decEq e f with
    | isTrue h => isTrue (congrArg Except.error h)
    | isFalse h => isFalse (fun c => h (Except.error.inj c))
  | .error _, .ok _ => isFalse (fun c => Except.noConfusion c)
  | .ok _, .error _ => isFalse (fun c => Except.noConfusion c)
  | .ok x, .ok y =>
    match decEq x y with
    | isTrue h => isTrue (congrArg Except.ok h)
    | isFalse h => isFalse (fun c => h (Except.ok.inj c))

/-- Embedded Python string: a list of characters. -/
abbrev Str := List Char

/-! ## Python string primitives

Each definition below embeds the behaviour of a CPython builtin used by the
scripts, restricted to the ASCII fragment the scripts manipulate. -/

/-- `str.split(sep)` for a one-character separator: does not collapse empty
fields, and `"".split(sep) == [""]`. -/
def pySplit (sep : Char) : Str → List Str
  | [] => [[]]
  | c :: cs =>
    if c = sep then [] :: pySplit sep cs
    else
      match pySplit sep cs with
      | [] => [[c]]
      | t :: ts => (c :: t) :: ts

/-- `str.split(sep, 1)` when `sep` occurs: the text before the first
occurrence and the text after it.  `none` when `sep` does not occur. -/
def splitFirst (sep : Char) : Str → Option (Str × Str)
  | [] => none
  | c :: cs =>
    if c = sep then some ([], cs)
    else (splitFirst sep cs).map (fun p => (c :: p.1, p.2))

/-- `str.strip()`: remove leading and trailing whitespace. -/
def pyStrip (s : Str) : Str :=
  ((s.dropWhile Char.isWhitespace).reverse.dropWhile Char.isWhitespace).reverse

/-- Digit run with CPython underscore rules: nonempty, underscores only
between digits (`"1_0"` is 10, `"_1"`, `"1_"`, `"1__2"` are rejected). -/
def digitGroups (cs : Str) : Option Nat :=
  if cs ≠ [] ∧ (pySplit '_' cs).all (fun g => g ≠ [] ∧ g.all Char.isDigit) then
    some (cs.foldl (fun n c => if c = '_' then n else n * 10 + (c.toNat - '0'.toNat)) 0)
  else none

/-- CPython `int(str)`: strip whitespace, optional single sign, digit run. -/
def pyInt (s : Str) : Option Int :=
  match pyStrip s with
  | '+' :: rest => (digitGroups rest).map Int.ofNat
  | '-' :: rest => (digitGroups rest).map (fun n => -(n : Int))
  | t => (digitGroups t).map Int.ofNat

/-- `str.lower()` (ASCII). -/
def pyLower (s : Str) : Str := s.map Char.toLower

/-- Lexicographic `≤` on strings by code point, as CPython compares `str`. -/
def lexLe : Str → Str → Bool
  | [], _ => true
  | _ :: _, [] => false
  | a :: as, b :: bs => if a = b then lexLe as bs else decide (a < b)

/-- Split a string at its LAST occurrence of `sep` into the text before and
after it; `none` when `sep` does not occur. -/
def lastSplit (sep : Char) : Str → Option (Str × Str)
  | [] => none
  | c :: cs =>
    match lastSplit sep cs with
    | some (b, a) => some (c :: b, a)
    | none => if c = sep then some ([], cs) else none

/-- `pathlib.Path(name).suffix` on a final path component: the part from the
last dot, unless that dot is the first or the last character. -/
def pySuffix (name : Str) : Str :=
  match lastSplit '.' name with
  | some (before, after) => if before ≠ [] ∧ after ≠ [] then '.' :: after else []
  | none => []

/-- Python `range(a, b)` unfolded with explicit fuel (structural, so that the
kernel can evaluate it). -/
def pyRangeAux : Nat → Int → List Int
  | 0, _ => []
  | n + 1, a => a :: pyRangeAux n (a + 1)

/-- Python `range(a, b)` as the list `[a, a+1, .., b-1]`, empty when `b ≤ a`. -/
def pyRangeList (a b : Int) : List Int := pyRangeAux (b - a).toNat a

end PdfTools

namespace SplitPdf

open PdfTools

/-- The `ValueError`s that `parse_ranges` can raise: from `int(...)` on a
malformed numeral, or from the explicit `raise` on an inverted range. -/
inductive ParseErr where
  /-- `ValueError` raised by `int()` on the given text. -/
  | invalidInt (text : Str)
  /-- `ValueError: Range start > end in '<part>'`. -/
  | startGtEnd (part : Str)
deriving DecidableEq, Repr

/-- One iteration of the `parse_ranges` loop body on a comma-field `part0`. -/
def parseToken (part0 : Str) : Except ParseErr (Int × Int) :=
  let part := pyStrip part0
  if '-' ∈ part then
    match splitFirst '-' part with
    | none => .error (.invalidInt part)
    | some (x, y) =>
      match pyInt x with
      | none => .error (.invalidInt x)
      | some a =>
        match pyInt y with
        | none => .error (.invalidInt y)
        | some b => if a > b then .error (.startGtEnd part) else .ok (a, b)
  else
    match pyInt part with
    | none => .error (.invalidInt part)
    | some p => .ok (p, p)

/-- The `for part in ranges_str.split(",")` loop accumulating `result`. -/
def parseLoop : List Str → List (Int × Int) → Except ParseErr (List (Int × Int))
  | [], acc => .ok acc
  | p :: ps, acc =>
    match parseToken p with
    | .ok r => parseLoop ps (acc ++ [r])
    | .error e => .error e

/-- `parse_ranges` of `split_pdf.py`:
convert a spec such as `1-3,5,7-9` to `[(1,3), (5,5), (7,9)]`. -/
def parse_ranges (ranges_str : Str) : Except ParseErr (List (Int × Int)) :=
  parseLoop (pySplit ',' ranges_str) []

/-- The exceptions `add_pages` and `write_pdf` can raise. -/
inductive SplitErr where
  /-- `IndexError: Page <n> is out of bounds` with the 1-based page number. -/
  | pageOutOfBounds (oneBasedPage : Int)
  /-- `FileExistsError: <path> already exists (use --overwrite to replace)`. -/
  | alreadyExists (path : List String)
deriving DecidableEq, Repr

/-- Filesystem model: files (paths, as component lists, mapped to pdf page
content) and directories.  A fresh write shadows an older entry for the same
path, as the later assoc-list entry is found first. -/
structure FS (α : Type) where
  files : List (List String × List α)
  dirs : List (List String)
deriving DecidableEq

/-- Content of the file at `p`, if one exists. -/
def FS.fileAt (fs : FS α) (p : List String) : Option (List α) :=
  (fs.files.find? (fun e => e.1 == p)).map (fun e => e.2)

/-- `Path.exists()`: a file or a directory is present at `p`. -/
def FS.pathExists (fs : FS α) (p : List String) : Bool :=
  (fs.fileAt p).isSome || fs.dirs.contains p

/-- `open(path, "wb")` followed by `writer.write`: (re)place the file. -/
def FS.setFile (fs : FS α) (p : List String) (c : List α) : FS α :=
  { fs with files := (p, c) :: fs.files }

/-- `Path.mkdir(parents=True, exist_ok=True)`: the directory and every
ancestor of it exist afterwards. -/
def mkdirParents (p : List String) (fs : FS α) : FS α :=
  { fs with dirs := p.inits ++ fs.dirs }

/-- The `for i in range(start-1, end)` loop body of `add_pages`, accumulating
the pages added to the `PdfWriter`. -/
def addPagesLoop [Inhabited α] (readerPages : List α) :
    List Int → List α → Except SplitErr (List α)
  | [], acc => .ok acc
  | i :: is, acc =>
    if i ≥ (readerPages.length : Int) ∨ i < 0 then .error (.pageOutOfBounds (i + 1))
    else addPagesLoop readerPages is (acc ++ [readerPages.getD i.toNat default])

/-- `add_pages` of `split_pdf.py`: add pages `[start-1, end-1]` (1-based
inclusive) of the reader to the writer (`stop` embeds the Python parameter
`end`, a reserved word here). -/
def add_pages [Inhabited α] (readerPages : List α) (start stop : Int) :
    Except SplitErr (List α) :=
  addPagesLoop readerPages (pyRangeList (start - 1) stop) []

/-- `write_pdf` of `split_pdf.py`: refuse to clobber without `overwrite`,
otherwise create the parent directory and write the file. -/
def write_pdf (writerPages : List α) (path : List String) (overwrite : Bool)
    (fs : FS α) : FS α × Option SplitErr :=
  if fs.pathExists path && !overwrite then (fs, some (.alreadyExists path))
  else ((mkdirParents path.dropLast fs).setFile path writerPages, none)

/-- The by-page loop of `split_pdf`: `for page_no, page in
enumerate(reader.pages, start=1)`, one single-page file per page.  A raised
exception aborts the remaining iterations. -/
def splitPagesLoop (stem : String) (destDir : List String) (overwrite : Bool) :
    List (Nat × α) → FS α → FS α × Option SplitErr
  | [], fs => (fs, none)
  | (pageNo, page) :: rest, fs =>
    match write_pdf [page] (destDir ++ [stem ++ "_p" ++ toString pageNo ++ ".pdf"])
        overwrite fs with
    | (fs', none) => splitPagesLoop stem destDir overwrite rest fs'
    | (fs', some e) => (fs', some e)

/-- The by-range loop of `split_pdf`: one output file per `(start, end)`
range, in range order; a raised exception aborts the remaining iterations. -/
def splitRangesLoop [Inhabited α] (stem : String) (destDir : List String)
    (overwrite : Bool) (readerPages : List α) :
    List (Int × Int) → FS α → FS α × Option SplitErr
  | [], fs => (fs, none)
  | (s, e) :: rest, fs =>
    match add_pages readerPages s e with
    | .error err => (fs, some err)
    | .ok writerPages =>
      let label := if s = e then toString s else toString s ++ "-" ++ toString e
      match write_pdf writerPages (destDir ++ [stem ++ "_" ++ label ++ ".pdf"])
          overwrite fs with
      | (fs', none) => splitRangesLoop stem destDir overwrite readerPages rest fs'
      | (fs', some err) => (fs', some err)

/-- `split_pdf` of `split_pdf.py`.  `stem` is `src.stem` and `readerPages`
the page list `PdfReader` yields for the source document; the destination
directory is created first, then either the by-page or the by-range loop
runs. -/
def split_pdf [Inhabited α] (stem : String) (destDir : List String)
    (readerPages : List α) (ranges : Option (List (Int × Int)))
    (overwrite : Bool) (fs0 : FS α) : FS α × Option SplitErr :=
  let fs := mkdirParents destDir fs0
  match ranges with
  | none => splitPagesLoop stem destDir overwrite (List.enumFrom 1 readerPages) fs
  | some rs => splitRangesLoop stem destDir overwrite readerPages rs fs

end SplitPdf

namespace MergePdf

open PdfTools

/-- `IMAGE_EXTS` of `merge_to_pdf.py`. -/
def IMAGE_EXTS : List Str :=
  [".jpg".data, ".jpeg".data, ".png".data, ".tif".data, ".tiff".data]

/-- A top-level regular file of the input directory.  `pdfPages` is the page
list `PdfReader` would yield were the file opened as a PDF, and `imagePage`
the one page that `images_to_pdf_bytes` followed by `PdfReader` would yield
were it converted as an image; which of the two (if either) is consulted is
decided solely by the file name's suffix, as in the source. -/
structure MFile (α : Type) where
  name : Str
  pdfPages : List α
  imagePage : α
deriving DecidableEq

/-- `add_file_to_merger` of `merge_to_pdf.py`: append the file's pages to the
merger state by suffix; unsupported suffixes are skipped (the source prints a
diagnostic to stderr and continues). -/
def add_file_to_merger (f : MFile α) (merger : List α) : List α :=
  let suffix := pyLower (pySuffix f.name)
  if suffix = ".pdf".data then merger ++ f.pdfPages
  else if suffix ∈ IMAGE_EXTS then merger ++ [f.imagePage]
  else merger

/-- The page sequence a single manifest entry contributes to the output. -/
def resolvedPages (f : MFile α) : List α :=
  let suffix := pyLower (pySuffix f.name)
  if suffix = ".pdf".data then f.pdfPages
  else if suffix ∈ IMAGE_EXTS then [f.imagePage]
  else []

/-- The error `merge_directory` can signal: `SystemExit` with message
`No supported files found in <input_dir>`, raised before any output
is written. -/
inductive MergeErr where
  | noFiles
deriving DecidableEq, Repr

/-- The sort order of `sorted(files, key=lambda p: p.name.lower())`. -/
def fileOrder (a b : MFile α) : Prop :=
  lexLe (pyLower a.name) (pyLower b.name) = true

instance : DecidableRel (@fileOrder α) :=
  fun _ _ => inferInstanceAs (Decidable (_ = true))

/-- `merge_directory` of `merge_to_pdf.py` on the list of top-level regular
files of the input directory (in arbitrary enumeration order): sort
case-insensitively by name (CPython `sorted` is a stable sort), fail when
there are no files at all, else fold every file into the merger; the
resulting page list is what `merger.write` writes to `output_pdf`. -/
def merge_directory (entries : List (MFile α)) : Except MergeErr (List α) :=
  let files := List.insertionSort fileOrder entries
  if files.isEmpty then .error .noFiles
  else .ok (files.foldl (fun m f => add_file_to_merger f m) [])

end MergePdf

namespace CompressPdf

open PdfTools

/-- `COMPRESSION_LEVELS` of `compress_pdf2.py`. -/
def COMPRESSION_LEVELS : List (String × String) :=
  [("screen", "Screen-view-only quality, 72 dpi images"),
   ("ebook", "Low quality, 150 dpi images"),
   ("printer", "High quality, 300 dpi images"),
   ("prepress", "High quality preserving color, 300 dpi imgs"),
   ("default", "Almost identical to screen")]

/-- Flat filesystem for the compressor: paths mapped to abstract file
contents (`Nat` tokens; only presence and identity matter). -/
structure CFS where
  files : List (String × Nat)
deriving DecidableEq

/-- `os.path.isfile` / content lookup. -/
def CFS.fileAt (fs : CFS) (p : String) : Option Nat :=
  (fs.files.find? (fun e => e.1 == p)).map (fun e => e.2)

/-- `os.path.exists` (the model holds no directories). -/
def CFS.pathExists (fs : CFS) (p : String) : Bool :=
  (fs.fileAt p).isSome

/-- A write to `p` (by the subprocess). -/
def CFS.setFile (fs : CFS) (p : String) (c : Nat) : CFS :=
  ⟨(p, c) :: fs.files⟩

/-- `os.remove(p)`. -/
def CFS.removeFile (fs : CFS) (p : String) : CFS :=
  ⟨fs.files.filter (fun e => !(e.1 == p))⟩

/-- `os.path.split`: the text before and after the last `/` (paths are taken
as already absolute and without redundant slashes, standing in for
`os.path.abspath`). -/
def pyPathSplit (p : Str) : Str × Str :=
  match lastSplit '/' p with
  | some (before, after) => (before, after)
  | none => ([], p)

/-- `os.path.splitext`: split at the last dot, ignoring any leading dots of
the name (`.bashrc` has no extension). -/
def pySplitext (name : Str) : Str × Str :=
  let lead := name.takeWhile (fun c => c = '.')
  let rest := name.drop lead.length
  match lastSplit '.' rest with
  | some (b, a) => (lead ++ b, '.' :: a)
  | none => (name, [])

/-- `os.path.join` of a directory and a file name. -/
def pyPathJoin (dir name : Str) : Str :=
  if dir = [] then name else dir ++ '/' :: name

/-- The default output path `<dir>/<base>_compressed<ext>` used when no
output path is passed. -/
def defaultOutputPath (input_path : String) : String :=
  let split1 := pyPathSplit input_path.data
  let split2 := pySplitext split1.2
  ⟨pyPathJoin split1.1 (split2.1 ++ "_compressed".data ++ split2.2)⟩

/-- The exceptions `compress_pdf` can raise. -/
inductive CompErr where
  /-- `FileNotFoundError` (missing input, or output not created). -/
  | fileNotFound (path : String)
  /-- `FileExistsError: Output file already exists`. -/
  | fileExists (path : String)
  /-- `ValueError: Invalid compression level`. -/
  | invalidLevel
  /-- `subprocess.CalledProcessError` re-raised after cleanup. -/
  | calledProcessError
deriving DecidableEq, Repr

/-- `compress_pdf` of `compress_pdf2.py`.  The Ghostscript subprocess is an
external collaborator; its observable behaviour is embedded by two oracle
parameters: `gsExitZero` (did it exit 0) and `gsWrites` (the content, if any,
it leaves at the output path — possibly partial).  On a non-zero exit, and on
a missing output file after a zero exit, the handler removes whatever is at
the output path and re-raises; on success the output path is returned. -/
def compress_pdf (fs : CFS) (input_path : String) (outputArg : Option String)
    (compression_level : String) (force : Bool)
    (gsExitZero : Bool) (gsWrites : Option Nat) : CFS × Except CompErr String :=
  if !(fs.pathExists input_path) then (fs, .error (.fileNotFound input_path))
  else
    let output_path := match outputArg with
      | some o => o
      | none => defaultOutputPath input_path
    if fs.pathExists output_path && !force then (fs, .error (.fileExists output_path))
    else if !(COMPRESSION_LEVELS.any (fun kv => kv.1 == compression_level)) then
      (fs, .error .invalidLevel)
    else
      let fs1 := match gsWrites with
        | some c => fs.setFile output_path c
        | none => fs
      if !gsExitZero then (fs1.removeFile output_path, .error .calledProcessError)
      else if fs1.pathExists output_path then (fs1, .ok output_path)
      else (fs1.removeFile output_path, .error (.fileNotFound output_path))

end CompressPdf

/-! ## Supporting lemmas -/

namespace PdfTools

theorem mem_of_mem_pyStrip {c : Char} {s : Str} (h : c ∈ pyStrip s) : c ∈ s := by
  unfold pyStrip at h
  rw [List.mem_reverse] at h
  have h1 := (List.dropWhile_sublist Char.isWhitespace).subset h
  rw [List.mem_reverse] at h1
  exact (List.dropWhile_sublist Char.isWhitespace).subset h1

theorem pyInt_nonneg {s : Str} (hs : '-' ∉ s) {a : Int} (h : pyInt s = some a) :
    0 ≤ a := by
  unfold pyInt at h
  split at h
  · obtain ⟨n, -, rfl⟩ := Option.map_eq_some'.mp h
    exact Int.ofNat_nonneg n
  · rename_i rest heq
    exact absurd (mem_of_mem_pyStrip (heq ▸ List.mem_cons_self '-' rest)) hs
  · obtain ⟨n, -, rfl⟩ := Option.map_eq_some'.mp h
    exact Int.ofNat_nonneg n

theorem splitFirst_left_no_sep {sep : Char} :
    ∀ {s x y : Str}, splitFirst sep s = some (x, y) → sep ∉ x
  | [], x, y, h => by simp [splitFirst] at h
  | c :: cs, x, y, h => by
    unfold splitFirst at h
    by_cases hc : c = sep
    · rw [if_pos hc] at h
      obtain ⟨rfl, -⟩ := Prod.mk.injEq .. ▸ Option.some.inj h
      simp
    · rw [if_neg hc] at h
      obtain ⟨⟨x', y'⟩, hp, hxy⟩ := Option.map_eq_some'.mp h
      obtain ⟨rfl, -⟩ := Prod.mk.injEq .. ▸ hxy
      intro hmem
      rcases List.mem_cons.mp hmem with rfl | hmem'
      · exact hc rfl
      · exact splitFirst_left_no_sep hp hmem'

end PdfTools

namespace SplitPdf

open PdfTools

theorem parseToken_ok_bounds {t : Str} {a b : Int}
    (h : parseToken t = .ok (a, b)) : 0 ≤ a ∧ a ≤ b := by
  unfold parseToken at h
  by_cases hm : '-' ∈ pyStrip t
  · rw [if_pos hm] at h
    split at h
    · exact Except.noConfusion h
    · rename_i x y hsf
      split at h
      · exact Except.noConfusion h
      · rename_i a' hx
        split at h
        · exact Except.noConfusion h
        · rename_i b' hy
          split at h
          · exact Except.noConfusion h
          · rename_i hab
            obtain ⟨rfl, rfl⟩ := Prod.mk.injEq .. ▸ Except.ok.inj h
            exact ⟨pyInt_nonneg (splitFirst_left_no_sep hsf) hx, not_lt.mp hab⟩
  · rw [if_neg hm] at h
    split at h
    · exact Except.noConfusion h
    · rename_i p hp
      obtain ⟨rfl, rfl⟩ := Prod.mk.injEq .. ▸ Except.ok.inj h
      exact ⟨pyInt_nonneg hm hp, le_refl _⟩

theorem parseLoop_ok_prop {P : Int × Int → Prop}
    (hP : ∀ t r, parseToken t = .ok r → P r) :
    ∀ (ps : List Str) (acc rs : List (Int × Int)),
      parseLoop ps acc = .ok rs → (∀ r ∈ acc, P r) → ∀ r ∈ rs, P r
  | [], acc, rs, h, hacc => by
    obtain rfl := Except.ok.inj h
    exact hacc
  | p :: ps, acc, rs, h, hacc => by
    unfold parseLoop at h
    cases hp : parseToken p with
    | error e => rw [hp] at h; exact absurd h (by simp)
    | ok r0 =>
      rw [hp] at h
      refine parseLoop_ok_prop hP ps (acc ++ [r0]) rs h ?_
      intro r hr
      rcases List.mem_append.mp hr with h1 | h2
      · exact hacc r h1
      · rw [List.mem_singleton] at h2
        rw [h2]
        exact hP p r0 hp

theorem parseLoop_error_of_mem {t : Str} {e0 : ParseErr} :
    ∀ {ps : List Str}, t ∈ ps → parseToken t = .error e0 →
      ∀ acc, ∃ e, parseLoop ps acc = .error e
  | p :: ps, hmem, ht, acc => by
    unfold parseLoop
    cases hp : parseToken p with
    | error e => exact ⟨e, rfl⟩
    | ok r =>
      rcases List.mem_cons.mp hmem with rfl | h2
      · rw [hp] at ht; exact absurd ht (by simp)
      · exact parseLoop_error_of_mem h2 ht (acc ++ [r])

theorem parseLoop_eq_mapM : ∀ (ps : List Str) (acc : List (Int × Int)),
    parseLoop ps acc = (ps.mapM parseToken).map (fun rs => acc ++ rs)
  | [], acc => by
    rw [List.mapM_nil]
    show Except.ok acc = Except.map (fun rs => acc ++ rs) (Except.ok [])
    simp [Except.map]
  | p :: ps, acc => by
    rw [List.mapM_cons]
    unfold parseLoop
    split
    · rename_i r hp
      rw [hp, parseLoop_eq_mapM ps (acc ++ [r])]
      cases ps.mapM parseToken with
      | error e => simp [Except.map, Except.bind, Bind.bind, Pure.pure, Except.pure]
      | ok rs => simp [Except.map, Except.bind, Bind.bind, Pure.pure, Except.pure]
    · rename_i e hp
      rw [hp]
      simp [Except.map, Except.bind, Bind.bind]

end SplitPdf

/-! ## Claim theorems: range-spec parsing -/

namespace SplitPdf

open PdfTools

/-- C5: for every valid range-spec string, `parse_ranges` returns the ranges
in exactly the token order given — it is pointwise token parsing (an `mapM`
over the comma-split fields) with no sorting, merging or deduplication —
mapping each single number `N` to `(N, N)` and each `A-B` token to `(A, B)`;
in particular `parse_ranges "1-3,5,7-9"` yields exactly
`[(1,3), (5,5), (7,9)]` in that order. -/
theorem claim5_parse_token_order :
    (∀ s : Str, parse_ranges s = (pySplit ',' s).mapM parseToken) ∧
    (∀ (t : Str) (p : Int), '-' ∉ pyStrip t → pyInt (pyStrip t) = some p →
      parseToken t = .ok (p, p)) ∧
    (∀ (t x y : Str) (a b : Int), '-' ∈ pyStrip t →
      splitFirst '-' (pyStrip t) = some (x, y) →
      pyInt x = some a → pyInt y = some b → a ≤ b → parseToken t = .ok (a, b)) ∧
    parse_ranges "1-3,5,7-9".data = .ok [(1, 3), (5, 5), (7, 9)] := by
  refine ⟨fun s => ?_, fun t p hm hp => ?_, fun t x y a b hm hsf hx hy hab => ?_, by decide⟩
  · rw [parse_ranges, parseLoop_eq_mapM]
    cases (pySplit ',' s).mapM parseToken with
    | error e => simp [Except.map]
    | ok rs => simp [Except.map]
  · unfold parseToken
    rw [if_neg hm, hp]
  · unfold parseToken
    simp only [if_pos hm, hsf, hx, hy]
    rw [if_neg (not_lt.mpr hab)]

/-- Witness for C5 at concrete inputs: the token `7-9` maps to `(7, 9)`. -/
theorem claim5_parse_token_order_witness : parseToken "7-9".data = .ok (7, 9) :=
  claim5_parse_token_order.2.2.1 "7-9".data "7".data "9".data 7 9
    (by decide) (by decide) (by decide) (by decide) (by decide)

/-- C4 counterexample: the claim says every spec containing a non-positive
bound is rejected with a ParseError, but `parse_ranges "0"` succeeds,
returning the range `(0, 0)` with a non-positive bound. -/
theorem claim4_counterexample : parse_ranges "0".data = .ok [(0, 0)] := by decide

/-- C4 amended: `parse_ranges` does not enforce positivity.  Every range it
returns satisfies `0 ≤ start ≤ end` (negative bounds are impossible because
the text before the first hyphen of a token carries no sign), but a zero
bound is accepted: `parse_ranges "0"` succeeds with `[(0, 0)]`. -/
theorem claim4_amended :
    (∀ (s : Str) (rs : List (Int × Int)), parse_ranges s = .ok rs →
      ∀ r ∈ rs, 0 ≤ r.1 ∧ r.1 ≤ r.2) ∧
    parse_ranges "0".data = .ok [(0, 0)] := by
  refine ⟨fun s rs h => ?_, by decide⟩
  exact parseLoop_ok_prop (fun t r ht => by
      obtain ⟨a, b⟩ := r
      exact parseToken_ok_bounds ht)
    (pySplit ',' s) [] rs h (by intro r hr; exact absurd hr (List.not_mem_nil r))

/-- Witness for C4-amended at a concrete input: `parse_ranges "2-5"` returns
`(2, 5)`, whose bounds satisfy `0 ≤ 2 ∧ 2 ≤ 5`. -/
theorem claim4_amended_witness : (0 : Int) ≤ 2 ∧ (2 : Int) ≤ 5 :=
  claim4_amended.1 "2-5".data [(2, 5)] (by decide) (2, 5) (by decide)

/-- C6 counterexample: the claim says every spec containing a token with more
than one hyphen is rejected, but in `parse_ranges "0--0"` the token `0--0`
(two hyphens) is split once at the first hyphen, `int("-0")` parses the
remainder as negative zero, and the range `(0, 0)` is returned. -/
theorem claim6_counterexample : parse_ranges "0--0".data = .ok [(0, 0)] := by decide

/-- C6 amended: `parse_ranges` signals a ParseError for EVERY spec
containing a failing token — in particular every empty token, every
non-numeric token (`int()` returns nothing on the token itself, or on either
side of its first hyphen), and every hyphenated token whose first number
exceeds its (possibly negative) second — and in particular fails on the
concrete inputs `"3-1"` (inverted range), `"abc"` (non-numeric), `"1--2"`
(rejected because `1 > -2`, via the inverted-range check) and `""`; but a
token with more than one hyphen is not always rejected, since the text after
the first hyphen is parsed as a signed integer (`"0--0"` yields `(0, 0)`). -/
theorem claim6_amended :
    parse_ranges "3-1".data = .error (.startGtEnd "3-1".data) ∧
    parse_ranges "abc".data = .error (.invalidInt "abc".data) ∧
    parse_ranges "1--2".data = .error (.startGtEnd "1--2".data) ∧
    parse_ranges "".data = .error (.invalidInt []) ∧
    (∀ (s t : Str) (e0 : ParseErr), t ∈ pySplit ',' s → parseToken t = .error e0 →
      ∃ e, parse_ranges s = .error e) ∧
    (∀ s : Str, [] ∈ pySplit ',' s → ∃ e, parse_ranges s = .error e) ∧
    (∀ t : Str, '-' ∉ pyStrip t → pyInt (pyStrip t) = none →
      parseToken t = .error (.invalidInt (pyStrip t))) ∧
    (∀ (t x y : Str), '-' ∈ pyStrip t → splitFirst '-' (pyStrip t) = some (x, y) →
      pyInt x = none → parseToken t = .error (.invalidInt x)) ∧
    (∀ (t x y : Str) (a : Int), '-' ∈ pyStrip t → splitFirst '-' (pyStrip t) = some (x, y) →
      pyInt x = some a → pyInt y = none → parseToken t = .error (.invalidInt y)) ∧
    (∀ (t x y : Str) (a b : Int), '-' ∈ pyStrip t → splitFirst '-' (pyStrip t) = some (x, y) →
      pyInt x = some a → pyInt y = some b → b < a →
      parseToken t = .error (.startGtEnd (pyStrip t))) := by
  refine ⟨by decide, by decide, by decide, by decide,
          fun s t e0 hmem ht => parseLoop_error_of_mem hmem ht [],
          fun s hs => parseLoop_error_of_mem hs
            (show parseToken [] = .error (.invalidInt []) by decide) [],
          fun t hm hp => ?_, fun t x y hm hsf hx => ?_,
          fun t x y a hm hsf hx hy => ?_, fun t x y a b hm hsf hx hy hab => ?_⟩
  · unfold parseToken
    rw [if_neg hm, hp]
  · unfold parseToken
    simp only [if_pos hm, hsf, hx]
  · unfold parseToken
    simp only [if_pos hm, hsf, hx, hy]
  · unfold parseToken
    simp only [if_pos hm, hsf, hx, hy]
    rw [if_pos hab]

/-- Witness for C6-amended at a concrete input: the spec `",1"` contains an
empty (hence failing) token, so parsing it fails. -/
theorem claim6_amended_witness : ∃ e, parse_ranges ",1".data = .error e :=
  claim6_amended.2.2.2.2.1 ",1".data [] (.invalidInt []) (by decide) (by decide)

end SplitPdf

/-! ## Claim theorems: merging -/

namespace PdfTools

theorem lexLe_total : ∀ (a b : Str), lexLe a b = true ∨ lexLe b a = true
  | [], _ => Or.inl rfl
  | _ :: _, [] => Or.inr rfl
  | x :: xs, y :: ys => by
    simp only [lexLe]
    by_cases hxy : x = y
    · subst hxy
      simp only [if_pos rfl]
      exact lexLe_total xs ys
    · rw [if_neg hxy, if_neg (Ne.symm hxy)]
      rcases lt_trichotomy x y with h | h | h
      · exact Or.inl (decide_eq_true h)
      · exact absurd h hxy
      · exact Or.inr (decide_eq_true h)

theorem lexLe_trans :
    ∀ (a b c : Str), lexLe a b = true → lexLe b c = true → lexLe a c = true
  | [], _, _, _, _ => rfl
  | _ :: _, [], _, hab, _ => by simp [lexLe] at hab
  | _ :: _, _ :: _, [], _, hbc => by simp [lexLe] at hbc
  | x :: xs, y :: ys, z :: zs, hab, hbc => by
    simp only [lexLe] at hab hbc ⊢
    by_cases hxy : x = y
    · subst hxy
      rw [if_pos rfl] at hab
      by_cases hyz : x = z
      · subst hyz
        rw [if_pos rfl] at hbc ⊢
        exact lexLe_trans xs ys zs hab hbc
      · rw [if_neg hyz] at hbc ⊢
        exact hbc
    · rw [if_neg hxy] at hab
      have h1 : x < y := of_decide_eq_true hab
      by_cases hyz : y = z
      · subst hyz
        rw [if_neg hxy]
        exact hab
      · rw [if_neg hyz] at hbc
        have h2 : y < z := of_decide_eq_true hbc
        have hxz : x < z := lt_trans h1 h2
        have hne : x ≠ z := ne_of_lt hxz
        rw [if_neg hne]
        exact decide_eq_true hxz

end PdfTools

namespace MergePdf

open PdfTools

instance : IsTotal (MFile α) fileOrder :=
  ⟨fun a b => lexLe_total (pyLower a.name) (pyLower b.name)⟩

instance : IsTrans (MFile α) fileOrder :=
  ⟨fun a b c => lexLe_trans (pyLower a.name) (pyLower b.name) (pyLower c.name)⟩

theorem add_file_eq_append (f : MFile α) (m : List α) :
    add_file_to_merger f m = m ++ resolvedPages f := by
  unfold add_file_to_merger resolvedPages
  by_cases h1 : pyLower (pySuffix f.name) = ".pdf".data
  · simp [h1]
  · by_cases h2 : pyLower (pySuffix f.name) ∈ IMAGE_EXTS
    · simp [h1, h2]
    · simp [h1, h2]

theorem mergeFold_eq_flatMap :
    ∀ (l : List (MFile α)) (acc : List α),
      l.foldl (fun m f => add_file_to_merger f m) acc = acc ++ l.flatMap resolvedPages
  | [], acc => by simp
  | f :: l, acc => by
    rw [List.foldl_cons, List.flatMap_cons, add_file_eq_append,
      mergeFold_eq_flatMap l (acc ++ resolvedPages f), List.append_assoc]

/-- C2: the merged output's page sequence is exactly the concatenation, in
case-insensitive filename order of the top-level files (a sorted permutation
of the directory listing), of each resolved source's own page sequence —
every `.pdf` contributes all its pages in internal order, every supported
image exactly one page; a directory `{b.png, a.pdf(3 pages), c.jpg}` yields
the 5 pages of `a.pdf ++ b.png ++ c.jpg` in that exact order. -/
theorem claim2_merge_page_order :
    (∀ (α : Type) (entries : List (MFile α)) (out : List α),
      merge_directory entries = .ok out →
        out = (List.insertionSort fileOrder entries).flatMap resolvedPages ∧
        (List.insertionSort fileOrder entries).Perm entries ∧
        List.Sorted fileOrder (List.insertionSort fileOrder entries)) ∧
    merge_directory [⟨"b.png".data, [], 20⟩, ⟨"c.jpg".data, [], 30⟩,
      ⟨"a.pdf".data, [1, 2, 3], (99 : Nat)⟩] = .ok [1, 2, 3, 20, 30] := by
  refine ⟨fun α entries out h => ?_, by decide⟩
  refine ⟨?_, List.perm_insertionSort _ _, List.sorted_insertionSort _ _⟩
  simp only [merge_directory] at h
  split at h
  · exact Except.noConfusion h
  · rw [← Except.ok.inj h, mergeFold_eq_flatMap, List.nil_append]

/-- Witness for C2 at a concrete input: merging `{x.pdf(2 pages), y.png}`
yields the pages of `x.pdf` then the page of `y.png`. -/
theorem claim2_merge_page_order_witness :
    [4, 5, 6] = (List.insertionSort fileOrder
        [⟨"y.png".data, [], 6⟩, ⟨"x.pdf".data, [4, 5], (0 : Nat)⟩]).flatMap
      resolvedPages :=
  (claim2_merge_page_order.1 Nat
    [⟨"y.png".data, [], 6⟩, ⟨"x.pdf".data, [4, 5], (0 : Nat)⟩]
    [4, 5, 6] (by decide)).1

/-- C1: the source raises `SystemExit` (modelled `MergeErr.noFiles`) only
when the directory holds no files at all; a directory whose every file has
an unsupported kind passes the guard, every file is skipped, and a zero-page
output is written — contradicting the claim, which expects an
EmptyInputError and no output for that case as well.  The guard's own
message, `No supported files found`, describes the intended check; the code
tests `if not files:` over all files instead. -/
theorem claim1_empty_input_divergence :
    merge_directory ([] : List (MFile Nat)) = .error .noFiles ∧
    merge_directory [⟨"notes.txt".data, [7, 8], (9 : Nat)⟩] = .ok [] :=
  ⟨by decide, by decide⟩

end MergePdf

/-! ## Supporting lemmas: splitting -/

namespace SplitPdf

open PdfTools

theorem addPagesLoop_cons [Inhabited α] (pages : List α) (i : Int) (is : List Int)
    (acc : List α) :
    addPagesLoop pages (i :: is) acc =
      if i ≥ (pages.length : Int) ∨ i < 0 then .error (.pageOutOfBounds (i + 1))
      else addPagesLoop pages is (acc ++ [pages.getD i.toNat default]) := rfl

theorem addPagesLoop_oob [Inhabited α] (pages : List α) :
    ∀ (n : Nat) (a : Int) (acc : List α), 0 ≤ a → a ≤ (pages.length : Int) →
      (pages.length : Int) - a < (n : Int) →
      addPagesLoop pages (pyRangeAux n a) acc =
        .error (.pageOutOfBounds ((pages.length : Int) + 1))
  | 0, a, acc, h0, hle, hlt => absurd hlt (by omega)
  | n + 1, a, acc, h0, hle, hlt => by
    rw [pyRangeAux, addPagesLoop_cons]
    by_cases ha : a = (pages.length : Int)
    · rw [if_pos (Or.inl (by omega))]
      rw [ha]
    · rw [if_neg (by omega)]
      exact addPagesLoop_oob pages n (a + 1) _ (by omega) (by omega) (by omega)

theorem addPagesLoop_ok [Inhabited α] (pages : List α) :
    ∀ (n : Nat) (a : Int) (acc : List α), 0 ≤ a → a + (n : Int) ≤ (pages.length : Int) →
      addPagesLoop pages (pyRangeAux n a) acc = .ok (acc ++ (pages.drop a.toNat).take n)
  | 0, a, acc, _, _ => by simp [pyRangeAux, addPagesLoop]
  | n + 1, a, acc, h0, hle => by
    rw [pyRangeAux, addPagesLoop_cons, if_neg (by omega)]
    rw [addPagesLoop_ok pages n (a + 1) _ (by omega) (by omega)]
    have hlt : a.toNat < pages.length := by omega
    have hdrop := List.drop_eq_getElem_cons (l := pages) hlt
    have htn : (a + 1).toNat = a.toNat + 1 := by omega
    rw [List.append_assoc, htn]
    congr 1
    rw [hdrop, List.take_succ_cons, List.singleton_append]
    congr 1
    rw [List.getD_eq_getElem?_getD, List.getElem?_eq_getElem hlt]
    rfl

theorem add_pages_oob [Inhabited α] (pages : List α) (s e : Int)
    (h1 : 1 ≤ s) (h2 : s ≤ (pages.length : Int)) (h3 : (pages.length : Int) < e) :
    add_pages pages s e = .error (.pageOutOfBounds ((pages.length : Int) + 1)) := by
  unfold add_pages pyRangeList
  exact addPagesLoop_oob pages _ (s - 1) [] (by omega) (by omega) (by omega)

theorem add_pages_neg [Inhabited α] (pages : List α) (s e : Int)
    (h1 : s ≤ 0) (h2 : s ≤ e) :
    add_pages pages s e = .error (.pageOutOfBounds s) := by
  unfold add_pages pyRangeList
  obtain ⟨m, hm⟩ : ∃ m, (e - (s - 1)).toNat = m + 1 := ⟨(e - (s - 1)).toNat - 1, by omega⟩
  rw [hm, pyRangeAux, addPagesLoop_cons, if_pos (Or.inr (by omega))]
  have hs : s - 1 + 1 = s := by omega
  rw [hs]

theorem add_pages_start_past [Inhabited α] (pages : List α) (s e : Int)
    (h1 : (pages.length : Int) < s) (h2 : s ≤ e) :
    add_pages pages s e = .error (.pageOutOfBounds s) := by
  unfold add_pages pyRangeList
  obtain ⟨m, hm⟩ : ∃ m, (e - (s - 1)).toNat = m + 1 := ⟨(e - (s - 1)).toNat - 1, by omega⟩
  rw [hm, pyRangeAux, addPagesLoop_cons, if_pos (Or.inl (by omega))]
  have hs : s - 1 + 1 = s := by omega
  rw [hs]

theorem add_pages_ok [Inhabited α] (pages : List α) (s e : Int)
    (h1 : 1 ≤ s) (h2 : s ≤ e) (h3 : e ≤ (pages.length : Int)) :
    add_pages pages s e = .ok ((pages.drop (s - 1).toNat).take (e - s + 1).toNat) := by
  unfold add_pages pyRangeList
  rw [addPagesLoop_ok pages _ (s - 1) [] (by omega) (by omega), List.nil_append]
  congr 2
  omega

theorem splitRangesLoop_cons [Inhabited α] (stem : String) (destDir : List String)
    (ow : Bool) (pages : List α) (s e : Int) (rest : List (Int × Int)) (fs : FS α) :
    splitRangesLoop stem destDir ow pages ((s, e) :: rest) fs =
      match add_pages pages s e with
      | .error err => (fs, some err)
      | .ok writerPages =>
        match write_pdf writerPages (destDir ++ [stem ++ "_" ++
            (if s = e then toString s else toString s ++ "-" ++ toString e) ++ ".pdf"])
            ow fs with
        | (fs', none) => splitRangesLoop stem destDir ow pages rest fs'
        | (fs', some err) => (fs', some err) := rfl

theorem splitRangesLoop_cons_err [Inhabited α] {stem : String} {destDir : List String}
    {ow : Bool} {pages : List α} {s e : Int} {rest : List (Int × Int)} {fs : FS α}
    {err : SplitErr} (h : add_pages pages s e = .error err) :
    splitRangesLoop stem destDir ow pages ((s, e) :: rest) fs = (fs, some err) := by
  rw [splitRangesLoop_cons, h]

theorem splitRangesLoop_cons_ok [Inhabited α] {stem : String} {destDir : List String}
    {ow : Bool} {pages : List α} {s e : Int} {rest : List (Int × Int)} {fs : FS α}
    {w : List α} (h : add_pages pages s e = .ok w) :
    splitRangesLoop stem destDir ow pages ((s, e) :: rest) fs =
      match write_pdf w (destDir ++ [stem ++ "_" ++
          (if s = e then toString s else toString s ++ "-" ++ toString e) ++ ".pdf"])
          ow fs with
      | (fs', none) => splitRangesLoop stem destDir ow pages rest fs'
      | (fs', some err) => (fs', some err) := by
  rw [splitRangesLoop_cons, h]

theorem splitRangesLoop_append [Inhabited α] (stem : String) (destDir : List String)
    (ow : Bool) (pages : List α) :
    ∀ (pre rest : List (Int × Int)) (fs : FS α),
      splitRangesLoop stem destDir ow pages (pre ++ rest) fs =
        match splitRangesLoop stem destDir ow pages pre fs with
        | (fs', none) => splitRangesLoop stem destDir ow pages rest fs'
        | (fs', some e) => (fs', some e)
  | [], rest, fs => rfl
  | (s, e) :: pre, rest, fs => by
    rw [List.cons_append]
    cases hadd : add_pages pages s e with
    | error err => rw [splitRangesLoop_cons_err hadd, splitRangesLoop_cons_err hadd]
    | ok w =>
      rw [splitRangesLoop_cons_ok hadd, splitRangesLoop_cons_ok hadd]
      cases hw : write_pdf w (destDir ++ [stem ++ "_" ++
          (if s = e then toString s else toString s ++ "-" ++ toString e) ++ ".pdf"])
          ow fs with
      | mk fs' r =>
        cases r with
        | none => exact splitRangesLoop_append stem destDir ow pages pre rest fs'
        | some err => rfl

end SplitPdf

namespace SplitPdf

open PdfTools

theorem fileAt_setFile_self (fs : FS α) (p : List String) (c : List α) :
    (fs.setFile p c).fileAt p = some c := by
  simp [FS.fileAt, FS.setFile, List.find?]

theorem write_pdf_overwrite (w : List α) (path : List String) (fs : FS α) :
    write_pdf w path true fs = ((mkdirParents path.dropLast fs).setFile path w, none) := by
  simp [write_pdf]

theorem splitPagesLoop_cons (stem : String) (destDir : List String) (ow : Bool)
    (pageNo : Nat) (page : α) (rest : List (Nat × α)) (fs : FS α) :
    splitPagesLoop stem destDir ow ((pageNo, page) :: rest) fs =
      match write_pdf [page] (destDir ++ [stem ++ "_p" ++ toString pageNo ++ ".pdf"])
          ow fs with
      | (fs', none) => splitPagesLoop stem destDir ow rest fs'
      | (fs', some e) => (fs', some e) := rfl

theorem splitPagesLoop_cons_ow (stem : String) (destDir : List String) (pageNo : Nat)
    (page : α) (rest : List (Nat × α)) (fs : FS α) :
    splitPagesLoop stem destDir true ((pageNo, page) :: rest) fs =
      splitPagesLoop stem destDir true rest
        ((mkdirParents (destDir ++ [stem ++ "_p" ++ toString pageNo ++ ".pdf"]).dropLast fs).setFile
          (destDir ++ [stem ++ "_p" ++ toString pageNo ++ ".pdf"]) [page]) := by
  rw [splitPagesLoop_cons, write_pdf_overwrite]

theorem splitPagesLoop_overwrite (stem : String) (destDir : List String) :
    ∀ (l : List (Nat × α)) (fs : FS α),
      (splitPagesLoop stem destDir true l fs).1.files =
        (l.map (fun pr => (destDir ++ [stem ++ "_p" ++ toString pr.1 ++ ".pdf"], [pr.2]))).reverse
          ++ fs.files ∧
      (splitPagesLoop stem destDir true l fs).2 = none
  | [], fs => ⟨by simp [splitPagesLoop], rfl⟩
  | (n, pg) :: rest, fs => by
    rw [splitPagesLoop_cons_ow]
    refine ⟨?_, (splitPagesLoop_overwrite stem destDir rest _).2⟩
    rw [(splitPagesLoop_overwrite stem destDir rest _).1]
    simp [FS.setFile, mkdirParents]

theorem splitPagesLoop_no_oob (stem : String) (destDir : List String) (ow : Bool) :
    ∀ (l : List (Nat × α)) (fs : FS α) (k : Int),
      (splitPagesLoop stem destDir ow l fs).2 ≠ some (.pageOutOfBounds k)
  | [], _, _ => by simp [splitPagesLoop]
  | (n, pg) :: rest, fs, k => by
    rw [splitPagesLoop_cons]
    unfold write_pdf
    by_cases hc : (fs.pathExists (destDir ++ [stem ++ "_p" ++ toString n ++ ".pdf"])
        && !ow) = true
    · rw [if_pos hc]
      simp
    · rw [if_neg hc]
      exact splitPagesLoop_no_oob stem destDir ow rest _ k

theorem split_pdf_single_range [Inhabited α] (stem : String) (destDir : List String)
    (pages w : List α) (s e : Int) (fs : FS α) (h : add_pages pages s e = .ok w) :
    split_pdf stem destDir pages (some [(s, e)]) true fs =
      ((mkdirParents (destDir ++ [stem ++ "_" ++
          (if s = e then toString s else toString s ++ "-" ++ toString e) ++ ".pdf"]).dropLast
        (mkdirParents destDir fs)).setFile
        (destDir ++ [stem ++ "_" ++
          (if s = e then toString s else toString s ++ "-" ++ toString e) ++ ".pdf"]) w,
       none) := by
  show splitRangesLoop stem destDir true pages [(s, e)] (mkdirParents destDir fs) = _
  rw [splitRangesLoop_cons_ok h, write_pdf_overwrite]
  rfl

end SplitPdf

/-! ## Claim theorems: splitting -/

namespace SplitPdf

open PdfTools

/-- C3: in by-range extraction, EVERY range `(start, end)` with
`start ≤ end` that requires a page index `< 0` or `≥ pageCount` — that is,
every such range with `start ≤ 0` or `end > pageCount` — fails with the
out-of-bounds error carrying the first offending 1-based page number: the
raw start page when `start ≤ 0` or when the range begins past the document,
and `pageCount + 1` when an in-document start walks past the end; the
failing range's output is not written and later ranges are not processed,
while output files written for earlier ranges in the batch are left in
place; in particular range `(9,12)` on a 10-page document fails referencing
page 11 with no file written, and `(15,15)` fails referencing page 15. -/
theorem claim3_out_of_bounds_abort :
    (∀ (α : Type) [Inhabited α] (pages : List α) (s e : Int),
      s ≤ e → (s ≤ 0 ∨ (pages.length : Int) < e) →
      add_pages pages s e = .error (.pageOutOfBounds
        (if s ≤ 0 then s
         else if (pages.length : Int) < s then s else (pages.length : Int) + 1))) ∧
    (∀ (α : Type) [Inhabited α] (pages : List α) (s e : Int),
      1 ≤ s → s ≤ (pages.length : Int) → (pages.length : Int) < e →
      add_pages pages s e = .error (.pageOutOfBounds ((pages.length : Int) + 1))) ∧
    (∀ (α : Type) [Inhabited α] (pages : List α) (s e : Int),
      s ≤ 0 → s ≤ e → add_pages pages s e = .error (.pageOutOfBounds s)) ∧
    (∀ (α : Type) [Inhabited α] (pages : List α) (s e : Int),
      (pages.length : Int) < s → s ≤ e → add_pages pages s e = .error (.pageOutOfBounds s)) ∧
    (∀ (α : Type) [Inhabited α] (stem : String) (destDir : List String) (ow : Bool)
      (pages : List α) (pre rest : List (Int × Int)) (s e : Int) (err : SplitErr)
      (fs fs' : FS α),
      splitRangesLoop stem destDir ow pages pre fs = (fs', none) →
      add_pages pages s e = .error err →
      splitRangesLoop stem destDir ow pages (pre ++ (s, e) :: rest) fs = (fs', some err)) ∧
    ((split_pdf "doc" ["out"] ([1,2,3,4,5,6,7,8,9,10] : List Int) (some [(9, 12)]) false
        ⟨[], []⟩).2 = some (.pageOutOfBounds 11) ∧
     (split_pdf "doc" ["out"] ([1,2,3,4,5,6,7,8,9,10] : List Int) (some [(9, 12)]) false
        ⟨[], []⟩).1.files = [] ∧
     (split_pdf "doc" ["out"] ([1,2,3,4,5,6,7,8,9,10] : List Int) (some [(15, 15)]) false
        ⟨[], []⟩).2 = some (.pageOutOfBounds 15)) := by
  refine ⟨fun α _ pages s e hse hoob => ?_,
          fun α _ pages s e h1 h2 h3 => add_pages_oob pages s e h1 h2 h3,
          fun α _ pages s e h1 h2 => add_pages_neg pages s e h1 h2,
          fun α _ pages s e h1 h2 => add_pages_start_past pages s e h1 h2,
          fun α _ stem destDir ow pages pre rest s e err fs fs' hpre hadd => ?_,
          by decide, by decide, by decide⟩
  · by_cases h0 : s ≤ 0
    · rw [if_pos h0]
      exact add_pages_neg pages s e h0 hse
    · rw [if_neg h0]
      by_cases hps : (pages.length : Int) < s
      · rw [if_pos hps]
        exact add_pages_start_past pages s e hps hse
      · rw [if_neg hps]
        exact add_pages_oob pages s e (by omega) (by omega) (hoob.resolve_left h0)
  · rw [splitRangesLoop_append stem destDir ow pages pre ((s, e) :: rest) fs, hpre]
    exact splitRangesLoop_cons_err hadd

/-- Witness for C3 at the spec's example: range `(9,12)` on a 10-page
document yields the out-of-bounds error for page 11. -/
theorem claim3_out_of_bounds_abort_witness :
    add_pages ([1,2,3,4,5,6,7,8,9,10] : List Int) 9 12 = .error (.pageOutOfBounds 11) := by
  have h := claim3_out_of_bounds_abort.1 Int ([1,2,3,4,5,6,7,8,9,10] : List Int) 9 12
    (by decide) (Or.inr (by decide))
  have e11 : (if (9 : Int) ≤ 0 then (9 : Int)
      else if (([1,2,3,4,5,6,7,8,9,10] : List Int).length : Int) < 9 then 9
      else (([1,2,3,4,5,6,7,8,9,10] : List Int).length : Int) + 1) = 11 := by decide
  rw [e11] at h
  exact h

/-- C7: every in-bounds range `(start, end)` with `start ≤ end` produces the
source's pages `start-1 .. end-1` (0-based, inclusive) in ascending order,
written under the name `<stem>_<start>.pdf` when `start = end` and
`<stem>_<start>-<end>.pdf` otherwise; `(2,4)` on a 10-page document gives a
3-page output equal to pages 2, 3, 4 of the original. -/
theorem claim7_in_bounds_extraction :
    (∀ (α : Type) [Inhabited α] (pages : List α) (s e : Int),
      1 ≤ s → s ≤ e → e ≤ (pages.length : Int) →
      add_pages pages s e = .ok ((pages.drop (s - 1).toNat).take (e - s + 1).toNat)) ∧
    (∀ (α : Type) [Inhabited α] (stem : String) (destDir : List String) (pages : List α)
      (s e : Int) (fs : FS α), 1 ≤ s → s ≤ e → e ≤ (pages.length : Int) →
      (split_pdf stem destDir pages (some [(s, e)]) true fs).2 = none ∧
      (split_pdf stem destDir pages (some [(s, e)]) true fs).1.fileAt
          (destDir ++ [stem ++ "_" ++
            (if s = e then toString s else toString s ++ "-" ++ toString e) ++ ".pdf"]) =
        some ((pages.drop (s - 1).toNat).take (e - s + 1).toNat)) ∧
    ((split_pdf "doc" ["out"] ([10,20,30,40,50,60,70,80,90,100] : List Nat) (some [(2, 4)])
        true ⟨[], []⟩).1.fileAt ["out", "doc_2-4.pdf"] = some [20, 30, 40] ∧
     (split_pdf "doc" ["out"] ([10,20,30] : List Nat) (some [(2, 2)]) true ⟨[], []⟩).1.fileAt
        ["out", "doc_2.pdf"] = some [20]) := by
  refine ⟨fun α _ pages s e h1 h2 h3 => add_pages_ok pages s e h1 h2 h3,
          fun α _ stem destDir pages s e fs h1 h2 h3 => ?_, by decide, by decide⟩
  have hs := split_pdf_single_range stem destDir pages _ s e fs
    (add_pages_ok pages s e h1 h2 h3)
  rw [hs]
  exact ⟨rfl, fileAt_setFile_self _ _ _⟩

/-- Witness for C7 at the spec's example: range `(2,4)` on a 10-page
document extracts pages 2, 3, 4. -/
theorem claim7_in_bounds_extraction_witness :
    add_pages ([10,20,30,40,50,60,70,80,90,100] : List Nat) 2 4 = .ok [20, 30, 40] := by
  have h := claim7_in_bounds_extraction.1 Nat ([10,20,30,40,50,60,70,80,90,100] : List Nat)
    2 4 (by decide) (by decide) (by decide)
  have hv : ((([10,20,30,40,50,60,70,80,90,100] : List Nat).drop ((2 : Int) - 1).toNat).take
      ((4 : Int) - 2 + 1).toNat) = [20, 30, 40] := by decide
  rw [hv] at h
  exact h

/-- C8: writing to an existing path without overwrite fails with the
already-exists error, performs no write and leaves the existing file's
content unchanged; otherwise the parent directory and all its ancestors are
created and the document is written at the path. -/
theorem claim8_collision_policy :
    (∀ (α : Type) (w : List α) (path : List String) (fs : FS α),
      fs.pathExists path = true →
        write_pdf w path false fs = (fs, some (.alreadyExists path)) ∧
        (write_pdf w path false fs).1.fileAt path = fs.fileAt path) ∧
    (∀ (α : Type) (w : List α) (path : List String) (ow : Bool) (fs : FS α),
      fs.pathExists path = false ∨ ow = true →
        write_pdf w path ow fs = ((mkdirParents path.dropLast fs).setFile path w, none) ∧
        (write_pdf w path ow fs).1.fileAt path = some w ∧
        ∀ q ∈ path.dropLast.inits, q ∈ (write_pdf w path ow fs).1.dirs) := by
  constructor
  · intro α w path fs h
    have heq : write_pdf w path false fs = (fs, some (.alreadyExists path)) := by
      simp [write_pdf, h]
    exact ⟨heq, by rw [heq]⟩
  · intro α w path ow fs h
    have hcond : (fs.pathExists path && !ow) = false := by
      rcases h with h | h <;> simp [h]
    have heq : write_pdf w path ow fs = ((mkdirParents path.dropLast fs).setFile path w, none) := by
      simp [write_pdf, hcond]
    refine ⟨heq, by rw [heq]; exact fileAt_setFile_self _ _ _, fun q hq => ?_⟩
    rw [heq]
    show q ∈ ((mkdirParents path.dropLast fs).setFile path w).dirs
    simp only [FS.setFile, mkdirParents]
    exact List.mem_append.mpr (Or.inl hq)

/-- Witness for C8 at a concrete input: an occupied path without overwrite is
refused and keeps its content. -/
theorem claim8_collision_policy_witness :
    write_pdf [1] ["out", "x.pdf"] false ⟨[(["out", "x.pdf"], [9])], []⟩ =
      (⟨[(["out", "x.pdf"], [9])], []⟩, some (.alreadyExists ["out", "x.pdf"])) :=
  (claim8_collision_policy.1 Nat [1] ["out", "x.pdf"] ⟨[(["out", "x.pdf"], [9])], []⟩
    (by decide)).1

/-- C10: in by-page mode the out-of-bounds error is unreachable — for every
source, destination, overwrite flag and filesystem the result error is never
`pageOutOfBounds` (the by-page loop never calls `add_pages`); and with
overwrite enabled an N-page source produces exactly N single-page output
files, the k-th (1-based) named `<stem>_p<k>.pdf` and containing exactly
page k. -/
theorem claim10_by_page_mode :
    (∀ (α : Type) [Inhabited α] (stem : String) (destDir : List String) (pages : List α)
      (ow : Bool) (fs : FS α) (k : Int),
      (split_pdf stem destDir pages none ow fs).2 ≠ some (.pageOutOfBounds k)) ∧
    (∀ (α : Type) [Inhabited α] (stem : String) (destDir : List String) (pages : List α)
      (fs : FS α),
      (split_pdf stem destDir pages none true fs).1.files =
        ((List.enumFrom 1 pages).map
          (fun pr => (destDir ++ [stem ++ "_p" ++ toString pr.1 ++ ".pdf"], [pr.2]))).reverse
          ++ fs.files ∧
      (split_pdf stem destDir pages none true fs).2 = none ∧
      (List.enumFrom 1 pages).length = pages.length) ∧
    ((split_pdf "doc" ["out"] ([5,6,7] : List Nat) none true ⟨[], []⟩).1.files =
      [(["out", "doc_p3.pdf"], [7]), (["out", "doc_p2.pdf"], [6]),
       (["out", "doc_p1.pdf"], [5])] ∧
     (split_pdf "doc" ["out"] ([5,6,7] : List Nat) none true ⟨[], []⟩).2 = none) := by
  refine ⟨fun α _ stem destDir pages ow fs k => ?_,
          fun α _ stem destDir pages fs => ?_, by decide, by decide⟩
  · show (splitPagesLoop stem destDir ow (List.enumFrom 1 pages)
        (mkdirParents destDir fs)).2 ≠ _
    exact splitPagesLoop_no_oob stem destDir ow _ _ k
  · refine ⟨?_, ?_, List.enumFrom_length⟩
    · show (splitPagesLoop stem destDir true (List.enumFrom 1 pages)
          (mkdirParents destDir fs)).1.files = _
      rw [(splitPagesLoop_overwrite stem destDir _ _).1]
      rfl
    · exact (splitPagesLoop_overwrite stem destDir
        (List.enumFrom 1 pages) (mkdirParents destDir fs)).2

/-- Witness for C10 at a concrete input: by-page splitting a 1-page document
finishes with no error. -/
theorem claim10_by_page_mode_witness :
    (split_pdf "d" ["o"] ([4] : List Nat) none true ⟨[], []⟩).2 = none :=
  (claim10_by_page_mode.2.1 Nat "d" ["o"] [4] ⟨[], []⟩).2.1

end SplitPdf

/-! ## Claim theorems: compression -/

namespace CompressPdf

open PdfTools

theorem fileAt_removeFile_self (fs : CFS) (p : String) :
    (fs.removeFile p).fileAt p = none := by
  have hnone : ((fs.files.filter (fun e => !(e.1 == p))).find? (fun e => e.1 == p)) = none := by
    rw [List.find?_eq_none]
    intro x hx
    have hmem := (List.mem_filter.mp hx).2
    simpa using hmem
  simp [CFS.fileAt, CFS.removeFile, hnone]

/-- C9: whenever `compress_pdf` reaches the Ghostscript call (input present,
no collision, valid level) and the subprocess exits non-zero — regardless of
what it may have partially written — or exits zero without an output file
present, the invocation fails with the corresponding error and whatever is
at the output path is removed first, so no partial output remains; a
concrete run with a crashing subprocess that left partial bytes ends with
the partial file deleted. -/
theorem claim9_failure_cleanup :
    (∀ (fs : CFS) (input output lvl : String) (force : Bool) (gsWrites : Option Nat),
      fs.pathExists input = true →
      (fs.pathExists output = false ∨ force = true) →
      (COMPRESSION_LEVELS.any (fun kv => kv.1 == lvl)) = true →
      (compress_pdf fs input (some output) lvl force false gsWrites).2 =
        .error .calledProcessError ∧
      (compress_pdf fs input (some output) lvl force false gsWrites).1.fileAt output =
        none) ∧
    (∀ (fs : CFS) (input output lvl : String) (force : Bool),
      fs.pathExists input = true →
      fs.pathExists output = false →
      (COMPRESSION_LEVELS.any (fun kv => kv.1 == lvl)) = true →
      (compress_pdf fs input (some output) lvl force true none).2 =
        .error (.fileNotFound output) ∧
      (compress_pdf fs input (some output) lvl force true none).1.fileAt output = none) ∧
    compress_pdf ⟨[("in.pdf", 1)]⟩ "in.pdf" (some "out.pdf") "ebook" false false (some 42) =
      (⟨[("in.pdf", 1)]⟩, .error .calledProcessError) := by
  refine ⟨fun fs input output lvl force gsW h1 h2 h3 => ?_,
          fun fs input output lvl force h1 h2 h3 => ?_, by decide⟩
  · have hcond : (fs.pathExists output && !force) = false := by
      rcases h2 with h | h <;> simp [h]
    cases gsW with
    | none =>
      exact ⟨by simp [compress_pdf, h1, hcond, h3],
             by simp [compress_pdf, h1, hcond, h3, fileAt_removeFile_self]⟩
    | some c =>
      exact ⟨by simp [compress_pdf, h1, hcond, h3],
             by simp [compress_pdf, h1, hcond, h3, fileAt_removeFile_self]⟩
  · have hcond : (fs.pathExists output && !force) = false := by simp [h2]
    exact ⟨by simp [compress_pdf, h1, hcond, h3, h2],
           by simp [compress_pdf, h1, hcond, h3, h2, fileAt_removeFile_self]⟩

/-- Witness for C9 at a concrete input: a crashing subprocess run fails with
the re-raised error and leaves nothing at the output path. -/
theorem claim9_failure_cleanup_witness :
    (compress_pdf ⟨[("in.pdf", 1)]⟩ "in.pdf" (some "out.pdf") "ebook" false false
      (some 42)).2 = .error .calledProcessError :=
  (claim9_failure_cleanup.1 ⟨[("in.pdf", 1)]⟩ "in.pdf" "out.pdf" "ebook" false (some 42)
    (by decide) (Or.inl (by decide)) (by decide)).1

end CompressPdf
